import Mathlib

/-!
# Verification of the schema-driven terminal prompting engine

A shallow embedding, in Lean 4, of the core of the `Prompt-From-Zod`
repository (`src/index.ts`): the schema compatibility checker
(`schemaValidator`), the validator adapter (`zodParseToValidate`), the
message formatter (`getInputMessage`), the string-prompt selection
(`stringPrompt`), the array collection loop (`arrayPrompt`), the recursive
schema walker (`schemaWalker`) and the session driver (`promptFromZod`).

Conventions of the embedding:
* Zod schema nodes become the mutual inductives `Schema` / `Fields`
  (a record's ordered field list).  The constructor `sother` stands for
  any Zod node outside the six kinds the engine dispatches on
  (`ZodUnknown`, `ZodAny`, ...), which in the source falls through to the
  `return false` / `throw` branches.
* The interactive terminal is replaced by an explicit oracle: a list of
  `PromptOutcome`s.  Each primitive prompt consumes the next outcome; an
  `ok v` outcome is the operator's accepted answer, an `err name message`
  outcome is the underlying prompt library failing with an error carrying
  that `name` and `message` (as inspected by the source's catch clause).
* Asynchronous functions that may throw are embedded as `Option`-returning
  functions: `none` models "no normal result" (a thrown error propagating,
  or the oracle being exhausted while the code is still awaiting input).
* `console.log` output (braces, banners, the array announce line) is
  presentation only and is not modelled; the walker instead returns the
  trace of the message strings handed to the prompt adapters (the strings
  the operator actually answers), which is what the label claims observe.
* JavaScript strings are Lean `String`s; `jsTrim`, `stripTrailingSep`
  and `jsToLower` implement `trim()`, the `/[:;\s]+$/` replacement and
  `toLowerCase()` over the underlying character list.  The inputs
  exercised here are ASCII, for which `Char.isWhitespace` and
  `Char.toLower` agree with the JavaScript `\s` class and `toLowerCase`.
-/

/-! ## Values and prompt outcomes -/

/-- A JavaScript value as produced by a walk: a primitive (boolean, string,
number), a collected array, or an object assembled field by field. -/
inductive Value where
  | vbool (b : Bool)
  | vstr (s : String)
  | vnum (n : Int)
  | varr (elems : List Value)
  | vobj (fields : List (String × Value))

/-- Primitive values are the ones a terminal prompt adapter can return. -/
def Value.isPrim : Value → Bool
  | .vbool _ => true
  | .vstr _ => true
  | .vnum _ => true
  | _ => false

/-- One interaction with a primitive prompt adapter: either the operator's
accepted answer, or the prompt failing with an error object carrying a
`name` and a `message`. -/
inductive PromptOutcome where
  | ok (v : Value)
  | err (name : String) (message : String)

/-- Every accepted answer in the oracle is a primitive value (terminal
prompts only ever produce booleans, strings and numbers). -/
def primsOnly (outs : List PromptOutcome) : Bool :=
  outs.all fun o =>
    match o with
    | .ok v => v.isPrim
    | .err _ _ => true

/-- The cancellation test of `arrayPrompt`'s catch clause (src/index.ts:173):
`error.name === 'AbortError' || error.message === 'AbortError' ||
error.name === 'ExitPromptError'`. -/
def isCancellation (name : String) (message : String) : Bool :=
  name == "AbortError" || message == "AbortError" || name == "ExitPromptError"

/-! ## The validator adapter (src/index.ts:65-77) -/

/-- One Zod issue, as the adapter reads it: only its `message` is used. -/
structure Issue where
  message : String

/-- The result of a Zod `safeParse` call: success, or failure with a list
of issues.  `safeParse` itself never throws; it is external to this
repository and enters the embedding as an abstract function
`Value → ParseResult`. -/
inductive ParseResult where
  | success
  | failure (issues : List Issue)

/-- What the validation closure returned by `zodParseToValidate` produces:
the literal `true`, or a string of joined error messages. -/
inductive ValidateResult where
  | asTrue
  | asMsg (text : String)

/-- JavaScript `Array.prototype.join(',\n')`: empty list gives `""`, and
the separator goes strictly between elements. -/
def joinCommaNewline : List String → String
  | [] => ""
  | [m] => m
  | m :: rest => m ++ ",\n" ++ joinCommaNewline rest

/-- `zodParseToValidate` (src/index.ts:65-77): wraps a node's `safeParse`
into the uniform `value → true | joined error text` contract.  It is a
total function: the only operation it performs is the non-throwing
`safeParse`, so the returned closure never throws. -/
def zodParseToValidate (safeParse : Value → ParseResult) : Value → ValidateResult :=
  fun value =>
    match safeParse value with
    | .success => .asTrue
    | .failure issues => .asMsg (joinCommaNewline (issues.map Issue.message))

/-! ## Labels and the message formatter (src/index.ts:190-240) -/

/-- A caller-supplied input label: a plain string, a structured override
`{value, overwriteDefault}` (an absent `overwriteDefault` is falsy in the
source's `if (propertyLabel.overwriteDefault)` test, so it is embedded as
`false`), or an object label `{value, items}` for a record. -/
inductive InputLabel where
  | str (text : String)
  | full (value : String) (overwriteDefault : Bool)
  | obj (value : String) (items : List (String × InputLabel))

/-- The indentation unit (src/index.ts:7): three spaces. -/
def indentUnit : String := "   "

/-- `getIndent` (src/index.ts:201-203): the indentation unit repeated
`indentCount` times. -/
def getIndent (indentCount : Nat) : String :=
  String.join (List.replicate indentCount indentUnit)

/-- A character of the regex class `[:;\s]`. -/
def sepChar (c : Char) : Bool := c == ':' || c == ';' || c.isWhitespace

/-- The regex replacement `.replace(/[:;\s]+$/, '')`: drop the trailing run
of colons, semicolons and whitespace. -/
def stripTrailingSep (s : String) : String :=
  String.mk (s.data.reverse.dropWhile sepChar).reverse

/-- JavaScript `String.prototype.trim()`: drop leading and trailing
whitespace. -/
def jsTrim (s : String) : String :=
  String.mk (((s.data.dropWhile Char.isWhitespace).reverse.dropWhile Char.isWhitespace).reverse)

/-- JavaScript `String.prototype.toLowerCase()` on ASCII input. -/
def jsToLower (s : String) : String :=
  String.mk (s.data.map Char.toLower)

/-- `getInputMessage` (src/index.ts:220-240).  The mandatory-message line
is the truthiness test `mandatoryMessage ? ... + ' | ' : ''`: both an
absent message and the empty string (falsy in JavaScript) contribute
nothing, every other string contributes its trimmed and stripped text
followed by the pipe separator.  The `propertyLabel` branch for `.obj`
reflects the runtime behaviour when an object label reaches this function:
`propertyLabel.overwriteDefault` is `undefined`, hence falsy, so the
combined `"value (default)"` form is produced. -/
def getInputMessage (indentCount : Nat) (defaultMessage : String)
    (propertyLabel : Option InputLabel := none)
    (mandatoryMessage : Option String := none) : String :=
  let defaultMessage := stripTrailingSep (jsTrim defaultMessage)
  let message :=
    match mandatoryMessage with
    | some m => if m == "" then "" else stripTrailingSep (jsTrim m) ++ " | "
    | none => ""
  let message := message ++
    match propertyLabel with
    | some (.str s) => stripTrailingSep s
    | some (.full v ow) =>
        if ow then stripTrailingSep (jsTrim v)
        else v ++ " (" ++ defaultMessage ++ ")"
    | some (.obj v _) => v ++ " (" ++ defaultMessage ++ ")"
    | none => defaultMessage
  getIndent indentCount ++ message ++ ": "

/-! ## The string prompt adapter (src/index.ts:88-113) -/

/-- Which terminal request a string prompt issues. -/
inductive StringReqKind where
  | editorReq
  | inputReq
deriving DecidableEq

/-- The observable shape of the request `stringPrompt` builds: which
request, whether `required` was passed, and the inline validator wired in.
(The `editor` call of the source passes no `required` flag.) -/
structure StringRequest where
  kind : StringReqKind
  required : Option Bool
  validate : Value → ValidateResult

/-- The long-form test of `stringPrompt` (src/index.ts:90-100): the
metadata type hint, lowercased, must be one of the fixed synonyms.  An
absent hint (or a non-string one) gives `metaType = undefined`, which is
falsy. -/
def longFormMeta (metaType : Option String) : Bool :=
  match metaType with
  | some t =>
      let l := jsToLower t
      l == "longtext" || l == "textarea" || l == "markdown" ||
      l == "richtext" || l == "long" || l == "big" || l == "bigtext"
  | none => false

/-- `stringPrompt` (src/index.ts:88-113), restricted to its observable
request selection: the metadata hint decides editor vs. single-line input,
and both paths wire `zodParseToValidate` of the node's `safeParse` as the
inline validator.  The interactive part of the adapter is handled by the
oracle in the walker. -/
def stringPrompt (metaType : Option String) (safeParse : Value → ParseResult) :
    StringRequest :=
  if longFormMeta metaType then
    { kind := .editorReq, required := none, validate := zodParseToValidate safeParse }
  else
    { kind := .inputReq, required := some true, validate := zodParseToValidate safeParse }

/-! ## Schema nodes -/

mutual
/-- A Zod schema node as the engine dispatches on it: the six supported
kinds plus `sother` for every other Zod node (which the source's
`instanceof` chains fall through).  A string node carries its optional
metadata type hint (`schema.meta()?.type` when that is a string); an enum
node carries its ordered option list; a record node carries its ordered
field list. -/
inductive Schema where
  | sbool
  | sstring (metaType : Option String)
  | snumber
  | senum (options : List String)
  | sarray (element : Schema)
  | sobject (shape : Fields)
  | sother

/-- The ordered field list of a record node: `for (const key in shape)`
iterates it in declaration order. -/
inductive Fields where
  | nil
  | cons (key : String) (s : Schema) (rest : Fields)
end

/-! ## The compatibility checker (src/index.ts:359-386) -/

/-- What `schemaValidator` can return (`CompatibleZodTypes | boolean`): the
literal `false`, the literal `true`, or the schema node itself.  Only the
literal `false` is falsy in JavaScript. -/
inductive VResult where
  | asFalse
  | asTrue
  | asSchema (s : Schema)

/-- JavaScript truthiness of a `schemaValidator` result: `false` is falsy,
`true` and any schema object are truthy. -/
def VResult.truthy : VResult → Bool
  | .asFalse => false
  | _ => true

mutual
/-- `schemaValidator` (src/index.ts:359-386), exactly as written: primitive
and enum nodes are accepted; an array node is accepted iff the recursive
call on its element (in value mode, the default) is truthy; a record node
is accepted iff every field is accepted in boolean mode; everything else
returns `false`.  Note: the source performs no depth bookkeeping. -/
def schemaValidator (schema : Schema) (boolReturn : Bool) : VResult :=
  match schema with
  | .sbool => if boolReturn then .asTrue else .asSchema schema
  | .sstring mt => if boolReturn then .asTrue else .asSchema (.sstring mt)
  | .snumber => if boolReturn then .asTrue else .asSchema schema
  | .senum opts => if boolReturn then .asTrue else .asSchema (.senum opts)
  | .sarray el =>
      if (schemaValidator el false).truthy then
        if boolReturn then .asTrue else .asSchema (.sarray el)
      else .asFalse
  | .sobject shape =>
      if fieldsAllValid shape then
        if boolReturn then .asTrue else .asSchema (.sobject shape)
      else .asFalse
  | .sother => .asFalse
termination_by structural schema

/-- The `for (const key in shape)` loop of `schemaValidator`'s record
branch: every field must be accepted in boolean mode. -/
def fieldsAllValid (fs : Fields) : Bool :=
  match fs with
  | .nil => true
  | .cons _ s rest => (schemaValidator s true).truthy && fieldsAllValid rest
termination_by structural fs
end

mutual
/-- Modelled from the spec (section 4.1, quoted by the claims): the
compatibility notion the specification states — `isCompatible(node,
depthBudget)`.  A primitive or enum node is always compatible; an array
node is compatible iff its element is a primitive or enum; a record node is
compatible iff the depth budget is positive and every field is compatible
at budget minus one; every other node is incompatible.  This definition is
the spec-side comparison point for the code's `schemaValidator`. -/
def specCompatible (s : Schema) (depthBudget : Nat) : Bool :=
  match s with
  | .sbool => true
  | .sstring _ => true
  | .snumber => true
  | .senum _ => true
  | .sarray el =>
      match el with
      | .sbool => true
      | .sstring _ => true
      | .snumber => true
      | .senum _ => true
      | _ => false
  | .sobject shape => decide (0 < depthBudget) && specCompatibleFields shape (depthBudget - 1)
  | .sother => false
termination_by structural s

/-- Every field compatible at the given budget (spec section 4.1). -/
def specCompatibleFields (fs : Fields) (depthBudget : Nat) : Bool :=
  match fs with
  | .nil => true
  | .cons _ s rest => specCompatible s depthBudget && specCompatibleFields rest depthBudget
termination_by structural fs
end

/-! ## The array collector (src/index.ts:137-179) -/

/-- The prompt adapter `arrayPrompt` selects for an array's element kind
(the `switch (true)` at src/index.ts:143-158). -/
inductive PromptKind where
  | boolK
  | stringK
  | numberK
  | enumK

/-- The element dispatch of `arrayPrompt`: `instanceof` checks for the four
primitive kinds; anything else hits the `default: throw` branch. -/
def elementPromptKind : Schema → Option PromptKind
  | .sbool => some .boolK
  | .sstring _ => some .stringK
  | .snumber => some .numberK
  | .senum _ => some .enumK
  | _ => none

/-- The `while (true)` collection loop of `arrayPrompt`
(src/index.ts:166-177): each iteration consumes one prompt outcome; a
successful outcome is pushed onto the accumulator; a failing outcome whose
error satisfies the cancellation test breaks the loop; any other failing
outcome is caught by the catch clause, which does nothing further, so the
loop simply continues.  `none` models the loop still running (awaiting
further operator input) when the oracle is exhausted; on `break` the
accumulated values and the unconsumed rest of the oracle are returned. -/
def arrayLoop : List PromptOutcome → List Value → Option (List Value × List PromptOutcome)
  | [], _ => none
  | .ok v :: rest, acc => arrayLoop rest (acc ++ [v])
  | .err n m :: rest, acc =>
      if isCancellation n m then some (acc, rest) else arrayLoop rest acc

/-- `arrayPrompt` (src/index.ts:137-179): dispatch on the element kind
(`none` models the `throw` for unsupported element types), then run the
collection loop.  The returned trace holds the message handed to the
element prompt on each iteration — always `getIndent indentCount`
(src/index.ts:169); the `message` argument itself only goes to
`console.log`, which is not modelled. -/
def arrayPrompt (message : String) (schema : Schema) (indentCount : Nat)
    (outs : List PromptOutcome) :
    Option (List Value × List PromptOutcome × List String) :=
  match schema with
  | .sarray el =>
      match elementPromptKind el with
      | none => none
      | some _ =>
          match arrayLoop outs [] with
          | none => none
          | some (vs, rest) =>
              some (vs, rest, List.replicate (outs.length - rest.length) (getIndent indentCount))
  | _ => none

/-! ## The schema walker (src/index.ts:245-324) -/

/-- The generated default child label of the walker's record branch
(src/index.ts:285-295): `{value: key, overwriteDefault: false, items: ...}`
where `items` maps each grandchild key to `{value: k, overwriteDefault:
false}` when the child is itself a record, and is absent otherwise. -/
def defaultChildLabel (key : String) (child : Schema) : InputLabel :=
  match child with
  | .sobject shape => .obj key (defaultItems shape)
  | _ => .full key false
where
  /-- `Object.keys(schema.shape[key].shape).reduce(...)` of the source. -/
  defaultItems : Fields → List (String × InputLabel)
    | .nil => []
    | .cons k _ rest => (k, .full k false) :: defaultItems rest

/-- The child-label selection of the walker's record loop
(src/index.ts:283-295): with a label supplied, the child label is
`propertyLabel.items[key]` — `some none` when the key is missing (a plain
`undefined` lookup); reading `.items` of a string or `{value,
overwriteDefault}` label is a JavaScript `TypeError` (indexing
`undefined`), embedded as `none`.  With no label supplied, the generated
default child label is used. -/
def childLabelOpt (propertyLabel : Option InputLabel) (key : String)
    (child : Schema) : Option (Option InputLabel) :=
  match propertyLabel with
  | some (.obj _ items) => some (List.lookup key items)
  | some _ => none
  | none => some (some (defaultChildLabel key child))

mutual
/-- `schemaWalker` (src/index.ts:245-324).  The oracle `outs` supplies each
primitive prompt's outcome; a success returns the collected value, the
unconsumed oracle, and the trace of messages handed to the prompt adapters;
`none` models a thrown error or the walk still awaiting input.  Primitive
branches hand `getInputMessage indentCount <kind> propertyLabel` to their
adapter and consume one outcome (an `err` outcome at a primitive prompt is
a thrown error, which the walker does not catch).  The record branch walks
each field in declared order at `indentCount + 1`; the array branch calls
`arrayPrompt` at `indentCount + 1` (its announce message only reaches
`console.log` and is not traced).  `sother` is the `throw new
Error('Unsupported schema type.')` branch. -/
def schemaWalker (schema : Schema) (propertyLabel : Option InputLabel)
    (indentCount : Nat) (outs : List PromptOutcome) :
    Option (Value × List PromptOutcome × List String) :=
  match schema with
  | .sbool =>
      match outs with
      | .ok v :: rest => some (v, rest, [getInputMessage indentCount "Boolean" propertyLabel])
      | _ => none
  | .sstring _ =>
      match outs with
      | .ok v :: rest => some (v, rest, [getInputMessage indentCount "String" propertyLabel])
      | _ => none
  | .snumber =>
      match outs with
      | .ok v :: rest => some (v, rest, [getInputMessage indentCount "Number" propertyLabel])
      | _ => none
  | .senum _ =>
      match outs with
      | .ok v :: rest => some (v, rest, [getInputMessage indentCount "Enum" propertyLabel])
      | _ => none
  | .sobject shape =>
      match walkFields propertyLabel shape (indentCount + 1) outs with
      | none => none
      | some (kvs, rest, msgs) => some (.vobj kvs, rest, msgs)
  | .sarray el =>
      match arrayPrompt
          (getInputMessage 0 "Array of values" propertyLabel (some "Press Ctrl+C to Finalize"))
          (.sarray el) (indentCount + 1) outs with
      | none => none
      | some (vs, rest, msgs) => some (.varr vs, rest, msgs)
  | .sother => none
termination_by structural schema

/-- The `for (const key in schema.shape)` loop of the walker's record
branch (src/index.ts:280-298): walk each field in declared order with its
selected child label at the given (already incremented) indentation,
threading the oracle, and collect the results keyed by field name in the
same order. -/
def walkFields (propertyLabel : Option InputLabel) (fs : Fields)
    (indentCount : Nat) (outs : List PromptOutcome) :
    Option (List (String × Value) × List PromptOutcome × List String) :=
  match fs with
  | .nil => some ([], outs, [])
  | .cons key s rest =>
      match childLabelOpt propertyLabel key s with
      | none => none
      | some childLbl =>
          match schemaWalker s childLbl indentCount outs with
          | none => none
          | some (v, outs1, msgs1) =>
              match walkFields propertyLabel rest indentCount outs1 with
              | none => none
              | some (kvs, outs2, msgs2) => some ((key, v) :: kvs, outs2, msgs1 ++ msgs2)
termination_by structural fs
end

/-! ## The session driver (src/index.ts:429-450) -/

/-- `promptFromZod` (src/index.ts:429-450): run one full walk; with
`doConfirm` set, consume one answer from the confirmation oracle
`confirms`; a positive answer returns the walk's result, a negative answer
restarts the whole session on the remaining oracles.  With `doConfirm`
unset the walk's result is returned directly and no confirmation answer is
consumed.  The session banners only reach `console.log` and are not
modelled; `none` models a propagating error or an exhausted oracle. -/
def promptFromZod (schema : Schema) (propertyLabel : Option InputLabel)
    (doConfirm : Bool) :
    List PromptOutcome → List Bool → Option (Value × List PromptOutcome × List Bool)
  | outs, confirms =>
    match schemaWalker schema propertyLabel 0 outs with
    | none => none
    | some (v, rest, _msgs) =>
        if doConfirm then
          match confirms with
          | [] => none
          | c :: cs =>
              if c then some (v, rest, cs)
              else promptFromZod schema propertyLabel doConfirm rest cs
        else some (v, rest, confirms)

/-! ## Shape matching (the property of claim C1) -/

mutual
/-- The claim's notion of a collected value matching a schema's declared
shape: a primitive value at each primitive or enum node, a sequence at each
array node, and at each record node a mapping whose key list equals the
record's declared field names in declared order, with each field's value
matching in turn. -/
def shapeOK (s : Schema) (v : Value) : Bool :=
  match s, v with
  | .sbool, v => v.isPrim
  | .sstring _, v => v.isPrim
  | .snumber, v => v.isPrim
  | .senum _, v => v.isPrim
  | .sarray _, v =>
      match v with
      | .varr _ => true
      | _ => false
  | .sobject shape, v =>
      match v with
      | .vobj kvs => shapeFieldsOK shape kvs
      | _ => false
  | .sother, _ => false
termination_by structural s

/-- Field lists match pairwise: same keys in the same order, each value
shape-matching its field's schema. -/
def shapeFieldsOK (fs : Fields) (kvs : List (String × Value)) : Bool :=
  match fs, kvs with
  | .nil, [] => true
  | .cons key s rest, (k, v) :: kvs => key == k && shapeOK s v && shapeFieldsOK rest kvs
  | _, _ => false
termination_by structural fs
end

/-! ## Concrete instances used by witnesses and counterexamples -/

/-- An array whose element is itself a record: `z.array(z.object({a:
z.string()}))`. -/
def arrayOfRecord : Schema := .sarray (.sobject (.cons "a" (.sstring none) .nil))

/-- A record nested six levels deep (one string leaf). -/
def deepRecord6 : Schema :=
  .sobject (.cons "f1" (.sobject (.cons "f2" (.sobject (.cons "f3"
    (.sobject (.cons "f4" (.sobject (.cons "f5" (.sobject (.cons "f6"
      (.sstring none) .nil)) .nil)) .nil)) .nil)) .nil)) .nil)

/-- The end-to-end demonstration schema of the spec:
`record{name: string, age: number, tags: array of string}`. -/
def demoSchema : Schema :=
  .sobject (.cons "name" (.sstring none)
    (.cons "age" .snumber
      (.cons "tags" (.sarray (.sstring none)) .nil)))

/-- The matching operator session: name, age, two tags, then cancellation. -/
def demoOuts : List PromptOutcome :=
  [.ok (.vstr "Ada"), .ok (.vnum 36), .ok (.vstr "math"), .ok (.vstr "logic"),
   .err "ExitPromptError" ""]

/-- The value that session collects. -/
def demoValue : Value :=
  .vobj [("name", .vstr "Ada"), ("age", .vnum 36),
         ("tags", .varr [.vstr "math", .vstr "logic"])]

/-- The prompt messages that session issues. -/
def demoMsgs : List String :=
  ["   name (String): ", "   age (Number): ", "      ", "      ", "      "]

/-- A one-field record used by the label-fallback counterexample. -/
def recordOneField : Schema := .sobject (.cons "name" (.sstring none) .nil)

/-- The mandatory-message part of a formatted prompt: the trimmed and
stripped text followed by the pipe separator when a truthy (non-empty)
message is given, empty when the message is absent or is the empty string
(falsy in JavaScript, so src/index.ts:223 emits nothing for it). -/
def mandatoryPart : Option String → String
  | some m => if m == "" then "" else stripTrailingSep (jsTrim m) ++ " | "
  | none => ""

/-- The fixed long-form synonym list of the string adapter. -/
def longFormSynonyms : List String :=
  ["longtext", "textarea", "markdown", "richtext", "long", "big", "bigtext"]

/-- A complete label spec mirroring `deepRecord6` level by level. -/
def deepLabel6 : InputLabel :=
  .obj "L1" [("f1", .obj "L1" [("f2", .obj "L2" [("f3", .obj "L3"
    [("f4", .obj "L4" [("f5", .obj "L5" [("f6", .str "leaf")])])])])])]

/-- The value a walk of `deepRecord6` collects for the single answer x. -/
def deepValue6 : Value :=
  .vobj [("f1", .vobj [("f2", .vobj [("f3", .vobj [("f4", .vobj
    [("f5", .vobj [("f6", .vstr "x")])])])])])]

/-- A compatible record nested three levels deep:
`record{a: record{b: record{c: string}}}`. -/
def depth3 : Schema :=
  .sobject (.cons "a" (.sobject (.cons "b" (.sobject (.cons "c"
    (.sstring none) .nil)) .nil)) .nil)

/-- A complete label spec mirroring `depth3`. -/
def depth3Label : InputLabel :=
  .obj "A" [("a", .obj "B" [("b", .obj "C" [("c", .str "leaf")])])]

/-- The value a walk of `depth3` collects for the single answer x. -/
def depth3Value : Value :=
  .vobj [("a", .vobj [("b", .vobj [("c", .vstr "x")])])]

/-! ## Helper lemmas -/

theorem primsOnly_tail {o : PromptOutcome} {outs : List PromptOutcome}
    (h : primsOnly (o :: outs) = true) : primsOnly outs = true := by
  simp only [primsOnly, List.all_cons, Bool.and_eq_true] at h
  exact h.2

theorem primsOnly_ok {v : Value} {outs : List PromptOutcome}
    (h : primsOnly (.ok v :: outs) = true) :
    v.isPrim = true ∧ primsOnly outs = true := by
  simp only [primsOnly, List.all_cons, Bool.and_eq_true] at h
  exact h

theorem arrayLoop_primsOnly :
    ∀ (outs : List PromptOutcome) (acc vs : List Value) (rest : List PromptOutcome),
      primsOnly outs = true → arrayLoop outs acc = some (vs, rest) →
      primsOnly rest = true := by
  intro outs
  induction outs with
  | nil => intro acc vs rest _ hl; simp [arrayLoop] at hl
  | cons o t ih =>
      intro acc vs rest hp hl
      cases o with
      | ok v =>
          simp only [arrayLoop] at hl
          exact ih (acc ++ [v]) vs rest (primsOnly_tail hp) hl
      | err n m =>
          simp only [arrayLoop] at hl
          by_cases hc : isCancellation n m = true
          · simp [hc] at hl
            obtain ⟨-, rfl⟩ := hl
            exact primsOnly_tail hp
          · simp [Bool.not_eq_true] at hc
            simp [hc] at hl
            exact ih acc vs rest (primsOnly_tail hp) hl

theorem arrayLoop_collects {n m : String} (hc : isCancellation n m = true) :
    ∀ (vs : List Value) (rest : List PromptOutcome) (acc : List Value),
      arrayLoop (vs.map .ok ++ .err n m :: rest) acc = some (acc ++ vs, rest) := by
  intro vs
  induction vs with
  | nil => intro rest acc; simp [arrayLoop, hc]
  | cons v vs ih =>
      intro rest acc
      simp only [List.map_cons, List.cons_append, arrayLoop, List.append_eq]
      rw [ih rest (acc ++ [v])]
      simp

mutual
theorem walker_shape (s : Schema) :
    ∀ (lbl : Option InputLabel) (ind : Nat) (outs : List PromptOutcome)
      (v : Value) (rest : List PromptOutcome) (msgs : List String),
      primsOnly outs = true →
      schemaWalker s lbl ind outs = some (v, rest, msgs) →
      shapeOK s v = true ∧ primsOnly rest = true := by
  cases s with
  | sbool =>
      intro lbl ind outs v rest msgs hp hw
      match outs, hp, hw with
      | .ok w :: t, hp, hw =>
          simp only [schemaWalker, Option.some.injEq, Prod.mk.injEq] at hw
          obtain ⟨rfl, rfl, rfl⟩ := hw
          exact ⟨(primsOnly_ok hp).1, (primsOnly_ok hp).2⟩
  | sstring mt =>
      intro lbl ind outs v rest msgs hp hw
      match outs, hp, hw with
      | .ok w :: t, hp, hw =>
          simp only [schemaWalker, Option.some.injEq, Prod.mk.injEq] at hw
          obtain ⟨rfl, rfl, rfl⟩ := hw
          exact ⟨(primsOnly_ok hp).1, (primsOnly_ok hp).2⟩
  | snumber =>
      intro lbl ind outs v rest msgs hp hw
      match outs, hp, hw with
      | .ok w :: t, hp, hw =>
          simp only [schemaWalker, Option.some.injEq, Prod.mk.injEq] at hw
          obtain ⟨rfl, rfl, rfl⟩ := hw
          exact ⟨(primsOnly_ok hp).1, (primsOnly_ok hp).2⟩
  | senum opts =>
      intro lbl ind outs v rest msgs hp hw
      match outs, hp, hw with
      | .ok w :: t, hp, hw =>
          simp only [schemaWalker, Option.some.injEq, Prod.mk.injEq] at hw
          obtain ⟨rfl, rfl, rfl⟩ := hw
          exact ⟨(primsOnly_ok hp).1, (primsOnly_ok hp).2⟩
  | sarray el =>
      intro lbl ind outs v rest msgs hp hw
      simp only [schemaWalker, arrayPrompt] at hw
      cases hk : elementPromptKind el with
      | none => simp only [hk] at hw; exact Option.noConfusion hw
      | some k =>
          simp only [hk] at hw
          cases hl : arrayLoop outs [] with
          | none => simp only [hl] at hw; exact Option.noConfusion hw
          | some p =>
              obtain ⟨vs, rest2⟩ := p
              simp only [hl, Option.some.injEq, Prod.mk.injEq] at hw
              obtain ⟨rfl, rfl, rfl⟩ := hw
              exact ⟨rfl, arrayLoop_primsOnly outs [] vs rest2 hp hl⟩
  | sobject shape =>
      intro lbl ind outs v rest msgs hp hw
      simp only [schemaWalker] at hw
      cases hwf : walkFields lbl shape (ind + 1) outs with
      | none => simp only [hwf] at hw; exact Option.noConfusion hw
      | some t3 =>
          obtain ⟨kvs, rest2, msgs2⟩ := t3
          simp only [hwf, Option.some.injEq, Prod.mk.injEq] at hw
          obtain ⟨rfl, rfl, rfl⟩ := hw
          have h := fields_shape shape lbl (ind + 1) outs kvs rest2 msgs2 hp hwf
          exact ⟨h.1, h.2⟩
  | sother =>
      intro lbl ind outs v rest msgs hp hw
      simp [schemaWalker] at hw
termination_by structural s

theorem fields_shape (fs : Fields) :
    ∀ (lbl : Option InputLabel) (ind : Nat) (outs : List PromptOutcome)
      (kvs : List (String × Value)) (rest : List PromptOutcome) (msgs : List String),
      primsOnly outs = true →
      walkFields lbl fs ind outs = some (kvs, rest, msgs) →
      shapeFieldsOK fs kvs = true ∧ primsOnly rest = true := by
  cases fs with
  | nil =>
      intro lbl ind outs kvs rest msgs hp hw
      simp only [walkFields, Option.some.injEq, Prod.mk.injEq] at hw
      obtain ⟨rfl, rfl, rfl⟩ := hw
      exact ⟨rfl, hp⟩
  | cons key s restF =>
      intro lbl ind outs kvs rest msgs hp hw
      simp only [walkFields] at hw
      cases hc : childLabelOpt lbl key s with
      | none => simp only [hc] at hw; exact Option.noConfusion hw
      | some cl =>
          simp only [hc] at hw
          cases hw1 : schemaWalker s cl ind outs with
          | none => simp only [hw1] at hw; exact Option.noConfusion hw
          | some t3 =>
              obtain ⟨v, outs1, msgs1⟩ := t3
              simp only [hw1] at hw
              cases hw2 : walkFields lbl restF ind outs1 with
              | none => simp only [hw2] at hw; exact Option.noConfusion hw
              | some t4 =>
                  obtain ⟨kvs2, outs2, msgs2⟩ := t4
                  simp only [hw2, Option.some.injEq, Prod.mk.injEq] at hw
                  obtain ⟨rfl, rfl, rfl⟩ := hw
                  have h1 := walker_shape s cl ind outs v outs1 msgs1 hp hw1
                  have h2 := fields_shape restF lbl ind outs1 kvs2 outs2 msgs2 h1.2 hw2
                  refine ⟨?_, h2.2⟩
                  simp [shapeFieldsOK, h1.1, h2.1]
termination_by structural fs
end

/-- The end-to-end scenario of the spec, instantiating the general shape
lemma `walker_shape`: name, age and two tags followed by a cancellation
collect a value that matches the declared shape of `demoSchema`. -/
theorem walker_shape_demo :
    schemaWalker demoSchema none 0 demoOuts = some (demoValue, [], demoMsgs) ∧
    shapeOK demoSchema demoValue = true :=
  ⟨rfl, (walker_shape demoSchema none 0 demoOuts demoValue [] demoMsgs rfl rfl).1⟩

theorem vtruthy_asFalse : (VResult.asFalse).truthy = false := rfl

theorem vtruthy_asTrue : (VResult.asTrue).truthy = true := rfl

theorem vtruthy_asSchema (s : Schema) : (VResult.asSchema s).truthy = true := rfl

/-! ## The claims -/

/-- C1: for every compatible schema of record depth at most 5 the walker
was claimed to return a collected value of exactly the declared shape, for
any label spec and any accepted answers.  The code breaks this on `depth3`
with no label spec: the generated default child labels stop one level down,
so at the third record level the walker reads `.items` of a plain
`{value, overwriteDefault}` label — a TypeError — and no value is returned
(third conjunct).  With a complete label spec the same schema walks fine
and the collected value does match the declared shape (last conjuncts). -/
theorem claim1_walker_depth3_crash :
    specCompatible depth3 5 = true ∧
    primsOnly [.ok (.vstr "x")] = true ∧
    schemaWalker depth3 none 0 [.ok (.vstr "x")] = none ∧
    schemaWalker depth3 (some depth3Label) 0 [.ok (.vstr "x")] =
      some (depth3Value, [], [getIndent 3 ++ "leaf: "]) ∧
    shapeOK depth3 depth3Value = true :=
  ⟨rfl, rfl, rfl, rfl, rfl⟩

/-- C2: both incompatible examples of the claim — an array of records and a
record nested six levels deep — are accepted by `schemaValidator` (it
recurses through array elements with plain truthiness and keeps no depth
budget), in both return modes, while the spec notion `specCompatible`
rejects them; and a full walk of the six-level record happily prompts, so
no gate prevents prompting either. -/
theorem claim2_schemaValidator_accepts_incompatible :
    specCompatible arrayOfRecord 5 = false ∧
    specCompatible deepRecord6 5 = false ∧
    schemaValidator arrayOfRecord true = .asTrue ∧
    schemaValidator arrayOfRecord false = .asSchema arrayOfRecord ∧
    schemaValidator deepRecord6 true = .asTrue ∧
    schemaWalker deepRecord6 (some deepLabel6) 0 [.ok (.vstr "x")] =
      some (deepValue6, [], [getIndent 6 ++ "leaf: "]) :=
  ⟨rfl, rfl, rfl, rfl, rfl, rfl⟩

/-- C3 counterexample: a non-cancellation element-prompt failure does not
propagate out of the collection loop — the loop continues, accepts the next
answer and returns normally on the later cancellation, which the claim
rules out. -/
theorem claim3_counterexample :
    isCancellation "TypeError" "boom" = false ∧
    arrayPrompt "msg" (.sarray .sbool) 1
      [.err "TypeError" "boom", .ok (.vbool true), .err "ExitPromptError" ""] =
      some ([.vbool true], [], List.replicate 3 (getIndent 1)) :=
  ⟨rfl, rfl⟩

/-- C3 amended: any element-prompt failure other than a cancellation
condition is swallowed by the catch clause, and the collection loop simply
continues with the next iteration as if the failing prompt had not
happened. -/
theorem claim3_errors_swallowed (n m : String) (outs : List PromptOutcome)
    (acc : List Value) (h : isCancellation n m = false) :
    arrayLoop (.err n m :: outs) acc = arrayLoop outs acc := by
  simp [arrayLoop, h]

theorem claim3_witness :
    isCancellation "TypeError" "boom" = false ∧
    arrayLoop [.err "TypeError" "boom", .err "AbortError" ""] [] =
      arrayLoop [.err "AbortError" ""] [] :=
  ⟨rfl, claim3_errors_swallowed "TypeError" "boom" [.err "AbortError" ""] [] rfl⟩

/-- C4: when the element adapter yields the values `vs` in order and then
signals a cancellation condition, the collector returns exactly `vs` in
that order (the empty sequence when `vs` is empty) and returns normally. -/
theorem claim4_arrayPrompt_collects (msg : String) (el : Schema) (k : PromptKind)
    (ind : Nat) (vs : List Value) (n m : String) (rest : List PromptOutcome)
    (hk : elementPromptKind el = some k) (hc : isCancellation n m = true) :
    arrayPrompt msg (.sarray el) ind (vs.map .ok ++ .err n m :: rest) =
      some (vs, rest, List.replicate (vs.length + 1) (getIndent ind)) := by
  simp only [arrayPrompt, hk]
  rw [arrayLoop_collects hc vs rest []]
  simp only [List.nil_append, Option.some.injEq, Prod.mk.injEq, List.length_append,
    List.length_map, List.length_cons]
  refine ⟨trivial, trivial, ?_⟩
  congr 1
  omega

theorem claim4_witness :
    elementPromptKind (.sstring none) = some .stringK ∧
    isCancellation "ExitPromptError" "" = true ∧
    arrayPrompt "msg" (.sarray (.sstring none)) 2
      [.ok (.vstr "math"), .ok (.vstr "logic"), .err "ExitPromptError" ""] =
      some ([.vstr "math", .vstr "logic"], [], List.replicate 3 (getIndent 2)) :=
  ⟨rfl, rfl,
   claim4_arrayPrompt_collects "msg" (.sstring none) .stringK 2
     [.vstr "math", .vstr "logic"] "ExitPromptError" "" [] rfl rfl⟩

/-- C5: with confirmation enabled, a no followed by a yes makes the driver
walk the schema exactly twice and return the second walk result (the
confirmation oracle is consumed twice, the prompt oracle once per walk);
with confirmation disabled a single walk result is returned and no
confirmation answer is consumed. -/
theorem claim5_promptFromZod_restart (s : Schema) (lbl : Option InputLabel)
    (outs : List PromptOutcome) (confirms : List Bool)
    (v1 v2 : Value) (r1 r2 : List PromptOutcome) (m1 m2 : List String)
    (h1 : schemaWalker s lbl 0 outs = some (v1, r1, m1))
    (h2 : schemaWalker s lbl 0 r1 = some (v2, r2, m2)) :
    promptFromZod s lbl true outs (false :: true :: confirms) = some (v2, r2, confirms) ∧
    promptFromZod s lbl false outs confirms = some (v1, r1, confirms) := by
  constructor
  · simp [promptFromZod, h1, h2]
  · simp [promptFromZod, h1]

theorem claim5_witness :
    schemaWalker .sbool none 0 [.ok (.vbool true), .ok (.vbool false)] =
      some (.vbool true, [.ok (.vbool false)], ["Boolean: "]) ∧
    schemaWalker .sbool none 0 [.ok (.vbool false)] =
      some (.vbool false, [], ["Boolean: "]) ∧
    promptFromZod .sbool none true [.ok (.vbool true), .ok (.vbool false)] [false, true] =
      some (.vbool false, [], []) ∧
    promptFromZod .sbool none false [.ok (.vbool true), .ok (.vbool false)] [] =
      some (.vbool true, [.ok (.vbool false)], []) :=
  ⟨rfl, rfl,
   (claim5_promptFromZod_restart .sbool none [.ok (.vbool true), .ok (.vbool false)] []
     (.vbool true) (.vbool false) [.ok (.vbool false)] [] ["Boolean: "] ["Boolean: "]
     rfl rfl).1,
   (claim5_promptFromZod_restart .sbool none [.ok (.vbool true), .ok (.vbool false)] []
     (.vbool true) (.vbool false) [.ok (.vbool false)] [] ["Boolean: "] ["Boolean: "]
     rfl rfl).2⟩

/-- C6: the formatter resolves labels with the claimed precedence — a
structured override with `overwriteDefault` set yields its own (trimmed)
text alone and the output does not depend on the default at all; an
override without the flag yields the combined text-and-default form; a
plain string replaces the default; no label yields the (trimmed) default;
and in every case the indentation comes first, then the mandatory part,
then the resolved label, then the closing colon.  The mandatory part is
pinned by the last three conjuncts: a given non-empty prefix comes first as
its trimmed and stripped text followed by the pipe separator, while the
empty string (falsy in the source's truthiness test) and an absent prefix
contribute nothing. -/
theorem claim6_getInputMessage_precedence (d : Nat) (dm : String) (pre : Option String) :
    (∀ v, getInputMessage d dm (some (.full v true)) pre =
        getIndent d ++ mandatoryPart pre ++ stripTrailingSep (jsTrim v) ++ ": ") ∧
    (∀ v dm2, getInputMessage d dm (some (.full v true)) pre =
        getInputMessage d dm2 (some (.full v true)) pre) ∧
    (∀ v, getInputMessage d dm (some (.full v false)) pre =
        getIndent d ++ mandatoryPart pre ++
          (v ++ " (" ++ stripTrailingSep (jsTrim dm) ++ ")") ++ ": ") ∧
    (∀ s, getInputMessage d dm (some (.str s)) pre =
        getIndent d ++ mandatoryPart pre ++ stripTrailingSep s ++ ": ") ∧
    (getInputMessage d dm none pre =
        getIndent d ++ mandatoryPart pre ++ stripTrailingSep (jsTrim dm) ++ ": ") ∧
    (∀ p, p ≠ "" →
        mandatoryPart (some p) = stripTrailingSep (jsTrim p) ++ " | ") ∧
    mandatoryPart (some "") = "" ∧
    mandatoryPart none = "" := by
  refine ⟨?_, ?_, ?_, ?_, ?_, ?_, rfl, rfl⟩
  · intro v; cases pre <;> simp [getInputMessage, mandatoryPart, String.append_assoc]
  · intro v dm2; cases pre <;> simp [getInputMessage, mandatoryPart, String.append_assoc]
  · intro v; cases pre <;> simp [getInputMessage, mandatoryPart, String.append_assoc]
  · intro s; cases pre <;> simp [getInputMessage, mandatoryPart, String.append_assoc]
  · cases pre <;> simp [getInputMessage, mandatoryPart, String.append_assoc]
  · intro p hp; simp [mandatoryPart, hp]

theorem claim6_witness :
    getInputMessage 1 "Array of values" (some (.str "tags")) (some "Press Ctrl+C to Finalize") =
      getIndent 1 ++ mandatoryPart (some "Press Ctrl+C to Finalize") ++
        stripTrailingSep "tags" ++ ": " ∧
    ("Press Ctrl+C to Finalize" : String) ≠ "" ∧
    mandatoryPart (some "Press Ctrl+C to Finalize") =
      stripTrailingSep (jsTrim "Press Ctrl+C to Finalize") ++ " | " ∧
    mandatoryPart (some "") = "" :=
  ⟨(claim6_getInputMessage_precedence 1 "Array of values"
      (some "Press Ctrl+C to Finalize")).2.2.2.1 "tags",
   by decide,
   (claim6_getInputMessage_precedence 1 "Array of values"
      (some "Press Ctrl+C to Finalize")).2.2.2.2.2.1 "Press Ctrl+C to Finalize" (by decide),
   (claim6_getInputMessage_precedence 0 "x" none).2.2.2.2.2.2.1⟩

/-- C7: the validator adapter maps an accepting parse to the literal true
result and a rejection with issue messages a and b to the single string a,
comma, newline, b; it is a total function of the non-throwing parse
result, so it never throws. -/
theorem claim7_zodParseToValidate (safeParse : Value → ParseResult) (v : Value) :
    (safeParse v = .success → zodParseToValidate safeParse v = .asTrue) ∧
    ∀ a b, safeParse v = .failure [⟨a⟩, ⟨b⟩] →
      zodParseToValidate safeParse v = .asMsg (a ++ ",\n" ++ b) := by
  constructor
  · intro h; simp [zodParseToValidate, h]
  · intro a b h; simp [zodParseToValidate, h, joinCommaNewline]

theorem claim7_witness :
    (fun _ : Value => ParseResult.failure [⟨"a"⟩, ⟨"b"⟩]) (.vstr "V") =
      ParseResult.failure [⟨"a"⟩, ⟨"b"⟩] ∧
    zodParseToValidate (fun _ => .failure [⟨"a"⟩, ⟨"b"⟩]) (.vstr "V") = .asMsg "a,\nb" :=
  ⟨rfl,
   (claim7_zodParseToValidate (fun _ => .failure [⟨"a"⟩, ⟨"b"⟩]) (.vstr "V")).2 "a" "b" rfl⟩

/-- C8 counterexample: with a label spec supplied for the record but no
entry for the field name, the field is prompted with the bare default kind
label (first conjunct), while the no-spec walk prompts with the field name
as label (second conjunct) — the two behaviours differ, against the
claim. -/
theorem claim8_counterexample :
    schemaWalker recordOneField (some (.obj "Person" [])) 0 [.ok (.vstr "Ada")] =
      some (.vobj [("name", .vstr "Ada")], [], ["   String: "]) ∧
    schemaWalker recordOneField none 0 [.ok (.vstr "Ada")] =
      some (.vobj [("name", .vstr "Ada")], [], ["   name (String): "]) ∧
    ("   String: " : String) ≠ "   name (String): " :=
  ⟨rfl, rfl, by decide⟩

/-- C8 amended: when the supplied record label lacks an entry for a field,
the child walk receives no label at all, so a string field is prompted with
the bare default kind label; the generated field-name label is produced
only when no label spec is supplied for the record. -/
theorem claim8_missing_label_entry (t : String) (items : List (String × InputLabel))
    (k : String) (mt : Option String) (ind : Nat) (outs : List PromptOutcome)
    (h : List.lookup k items = none) :
    childLabelOpt (some (.obj t items)) k (.sstring mt) = some none ∧
    childLabelOpt none k (.sstring mt) = some (some (.full k false)) ∧
    walkFields (some (.obj t items)) (.cons k (.sstring mt) .nil) ind outs =
      (match outs with
       | .ok v :: rest => some ([(k, v)], rest, [getInputMessage ind "String" none none])
       | _ => none) := by
  refine ⟨by simp [childLabelOpt, h], rfl, ?_⟩
  cases outs with
  | nil => simp [walkFields, childLabelOpt, h, schemaWalker]
  | cons o rest =>
      cases o with
      | ok v => simp [walkFields, childLabelOpt, h, schemaWalker]
      | err n m => simp [walkFields, childLabelOpt, h, schemaWalker]

theorem claim8_witness :
    List.lookup "name" ([] : List (String × InputLabel)) = none ∧
    walkFields (some (.obj "Person" [])) (.cons "name" (.sstring none) .nil) 1
      [.ok (.vstr "Ada")] =
      some ([("name", .vstr "Ada")], [], ["   String: "]) :=
  ⟨rfl,
   (claim8_missing_label_entry "Person" [] "name" none 1 [.ok (.vstr "Ada")] rfl).2.2⟩

/-- C9: the string adapter selects the editor-style request exactly when
the lowercased metadata hint is one of the seven fixed synonyms; otherwise
it selects the single-line request with input required, and either way the
validator adapter is wired in as the inline validator. -/
theorem claim9_stringPrompt_selection (mt : Option String) (safeParse : Value → ParseResult) :
    ((stringPrompt mt safeParse).kind = .editorReq ↔
      ∃ t, mt = some t ∧ jsToLower t ∈ longFormSynonyms) ∧
    ((stringPrompt mt safeParse).kind ≠ .editorReq →
      (stringPrompt mt safeParse).kind = .inputReq ∧
      (stringPrompt mt safeParse).required = some true) ∧
    (stringPrompt mt safeParse).validate = zodParseToValidate safeParse := by
  have hiff : longFormMeta mt = true ↔
      ∃ t, mt = some t ∧ jsToLower t ∈ longFormSynonyms := by
    cases mt with
    | none => simp [longFormMeta, longFormSynonyms]
    | some t =>
        simp [longFormMeta, longFormSynonyms, List.mem_cons, beq_iff_eq]
        tauto
  by_cases h : longFormMeta mt = true
  · refine ⟨?_, ?_, ?_⟩
    · simp [stringPrompt, h, hiff.mp h]
    · simp [stringPrompt, h]
    · simp [stringPrompt, h]
  · have h2 : longFormMeta mt = false := by simpa using h
    refine ⟨?_, ?_, ?_⟩
    · simp only [stringPrompt, h2]
      constructor
      · intro hk; exact absurd hk (by simp)
      · intro he; exact absurd (hiff.mpr he) h
    · simp [stringPrompt, h2]
    · simp [stringPrompt, h2]

theorem claim9_witness :
    (stringPrompt (some "LongText") (fun _ => .success)).kind = .editorReq ∧
    (stringPrompt (some "date") (fun _ => .success)).kind = .inputReq ∧
    (stringPrompt (some "date") (fun _ => .success)).required = some true :=
  ⟨(claim9_stringPrompt_selection (some "LongText") (fun _ => .success)).1.mpr
     ⟨"LongText", rfl, by decide⟩,
   ((claim9_stringPrompt_selection (some "date") (fun _ => .success)).2.1 (by decide)).1,
   ((claim9_stringPrompt_selection (some "date") (fun _ => .success)).2.1 (by decide)).2⟩

/-- C10: the boolean mode accepts a node exactly when the value mode
returns a truthy (non-false) result, and on every accepted node the value
mode returns the very node that was passed in. -/
theorem claim10_schemaValidator_modes_agree (s : Schema) :
    (schemaValidator s true = .asTrue ↔ (schemaValidator s false).truthy = true) ∧
    ((schemaValidator s false).truthy = true → schemaValidator s false = .asSchema s) := by
  cases s with
  | sbool => exact ⟨by simp [schemaValidator, vtruthy_asSchema], fun _ => rfl⟩
  | sstring mt => exact ⟨by simp [schemaValidator, vtruthy_asSchema], fun _ => rfl⟩
  | snumber => exact ⟨by simp [schemaValidator, vtruthy_asSchema], fun _ => rfl⟩
  | senum opts => exact ⟨by simp [schemaValidator, vtruthy_asSchema], fun _ => rfl⟩
  | sarray el =>
      cases h : (schemaValidator el false).truthy with
      | false =>
          simp only [schemaValidator, h]
          simp [vtruthy_asFalse]
      | true =>
          simp only [schemaValidator, h]
          simp [vtruthy_asSchema, vtruthy_asTrue]
  | sobject shape =>
      cases h : fieldsAllValid shape with
      | false =>
          simp only [schemaValidator, h]
          simp [vtruthy_asFalse]
      | true =>
          simp only [schemaValidator, h]
          simp [vtruthy_asSchema, vtruthy_asTrue]
  | sother =>
      simp [schemaValidator, vtruthy_asFalse]

theorem claim10_witness :
    (schemaValidator (.senum ["x", "y"]) false).truthy = true ∧
    schemaValidator (.senum ["x", "y"]) false = .asSchema (.senum ["x", "y"]) :=
  ⟨rfl, (claim10_schemaValidator_modes_agree (.senum ["x", "y"])).2 rfl⟩
